import Mathlib

set_option maxHeartbeats 1000000

namespace GuardianAngel

/-!
Shallow embedding of the guardian-angel tool-call authorization gate:
the parameter fingerprint (store.ts, hashParams), the escalation store
(store.ts), the evaluator with its clarity/stakes risk scorer and the
intrinsic-evil detector (evaluate.ts), and the before_tool_call gate
controller (hook.ts).  Machine integers are modelled as Nat (timestamps
in milliseconds), JavaScript objects as association lists, randomness
and the clock as explicit arguments, and the SHA-256 digest together
with the JavaScript regular-expression engine as opaque function
parameters, since no verified claim depends on their behaviour.
-/

/-- JSON-like values: the model of JavaScript values fed to the gate as
tool-call parameters. -/
inductive JsonVal where
  | null
  | bool (b : Bool)
  | num (n : Int)
  | str (s : String)
  | arr (elems : List JsonVal)
  | obj (fields : List (String × JsonVal))
deriving Repr

/-- Boolean prefix test on character lists. -/
def charListIsPrefixOf : List Char → List Char → Bool
  | [], _ => true
  | _ :: _, [] => false
  | a :: as, b :: bs => a == b && charListIsPrefixOf as bs

/-- Boolean infix test on character lists. -/
def charListIsInfixOf (needle : List Char) : List Char → Bool
  | [] => needle.isEmpty
  | c :: rest => charListIsPrefixOf needle (c :: rest) || charListIsInfixOf needle rest

/-- Models the JavaScript `String.prototype.includes` substring test. -/
def strIncludes (s sub : String) : Bool :=
  charListIsInfixOf sub.data s.data

/-- ASCII lowercase of one character. -/
def charToLower (c : Char) : Char :=
  if 65 ≤ c.toNat && c.toNat ≤ 90 then Char.ofNat (c.toNat + 32) else c

/-- Models `String.prototype.toLowerCase` on the ASCII range, which is
all the detector patterns use. -/
def strToLower (s : String) : String :=
  ⟨s.data.map charToLower⟩

/-- Association-list lookup, modelling JavaScript object property read. -/
def alistGet {α : Type} : List (String × α) → String → Option α
  | [], _ => none
  | (k, v) :: m, key => if k == key then some v else alistGet m key

/-- Association-list insert, modelling JavaScript property assignment:
replaces in place when the key exists, appends otherwise. -/
def alistInsert {α : Type} : List (String × α) → String → α → List (String × α)
  | [], key, v => [(key, v)]
  | (k, w) :: m, key, v =>
    if k == key then (key, v) :: m else (k, w) :: alistInsert m key v

/-- Association-list delete, modelling the JavaScript delete operator. -/
def alistErase {α : Type} : List (String × α) → String → List (String × α)
  | [], _ => []
  | (k, w) :: m, key => if k == key then alistErase m key else (k, w) :: alistErase m key

/-- JavaScript falsiness on the value model. -/
def jsFalsy : JsonVal → Bool
  | .null => true
  | .bool b => !b
  | .num n => n == 0
  | .str s => s == ""
  | .arr _ => false
  | .obj _ => false

mutual
/-- Models the JavaScript `String(v)` conversion on the value model. -/
def jsToString : JsonVal → String
  | .null => "null"
  | .bool true => "true"
  | .bool false => "false"
  | .num n => toString n
  | .str s => s
  | .arr elems => jsArrToString elems
  | .obj _ => "[object Object]"

/-- `Array.prototype.toString`: elements joined with commas, null rendered
as the empty string. -/
def jsArrToString : List JsonVal → String
  | [] => ""
  | [.null] => ""
  | [v] => jsToString v
  | .null :: rest => "," ++ jsArrToString rest
  | v :: rest => jsToString v ++ "," ++ jsArrToString rest
end

/-- One hexadecimal digit, lowercase. -/
def hexDigit (n : Nat) : Char :=
  if n < 10 then Char.ofNat (48 + n) else Char.ofNat (87 + n)

/-- JSON string escaping of one character, as JSON.stringify performs it. -/
def jsonEscapeChar (c : Char) : String :=
  if c == '"' then "\\\""
  else if c == '\\' then "\\\\"
  else if c == '\n' then "\\n"
  else if c == '\r' then "\\r"
  else if c == '\t' then "\\t"
  else if c == Char.ofNat 8 then "\\b"
  else if c == Char.ofNat 12 then "\\f"
  else if c.toNat < 32 then
    "\\u00" ++ String.singleton (hexDigit (c.toNat / 16)) ++ String.singleton (hexDigit (c.toNat % 16))
  else String.singleton c

/-- JSON string quoting. -/
def jsonQuote (s : String) : String :=
  "\"" ++ String.join (s.data.map jsonEscapeChar) ++ "\""

/-- Removes duplicate keys, keeping first occurrences, as the JSON
serialization algorithm does to an array replacer. -/
def dedupKeys (seen : List String) : List String → List String
  | [] => []
  | k :: ks => if seen.contains k then dedupKeys seen ks else k :: dedupKeys (k :: seen) ks

/-- Renders the selected fields of an object: for each replacer key, in
replacer order, the field with that key when the object has one. -/
def objParts (keys : List String) (rendered : List (String × String)) : List String :=
  (dedupKeys [] keys).filterMap fun k =>
    (alistGet rendered k).map fun v => jsonQuote k ++ ":" ++ v

mutual
/-- `JSON.stringify` with an array replacer and no spacing argument.  An
array replacer is a property whitelist: every serialized object, the
top-level one included, keeps only the properties named in the list, in
list order.  Array elements are all kept. -/
def jsonStringifyWith (keys : List String) : JsonVal → String
  | .null => "null"
  | .bool true => "true"
  | .bool false => "false"
  | .num n => toString n
  | .str s => jsonQuote s
  | .arr elems => "[" ++ jsonStringifyArr keys elems ++ "]"
  | .obj fields =>
    "\x7b" ++ String.intercalate "," (objParts keys (jsonStringifyFields keys fields)) ++ "\x7d"

/-- Serializes the elements of a JSON array, comma separated. -/
def jsonStringifyArr (keys : List String) : List JsonVal → String
  | [] => ""
  | [v] => jsonStringifyWith keys v
  | v :: rest => jsonStringifyWith keys v ++ "," ++ jsonStringifyArr keys rest

/-- Serializes every field value of an object; selection and ordering by
the replacer happen afterwards in objParts. -/
def jsonStringifyFields (keys : List String) : List (String × JsonVal) → List (String × String)
  | [] => []
  | (k, v) :: rest => (k, jsonStringifyWith keys v) :: jsonStringifyFields keys rest
end

/-- Insertion into a sorted list of keys, by the lexicographic string
order that JavaScript Array.prototype.sort uses on distinct keys. -/
def insertKeySorted (s : String) : List String → List String
  | [] => [s]
  | t :: ts => if s < t then s :: t :: ts else t :: insertKeySorted s ts

/-- `Object.keys(params).sort()` on distinct keys. -/
def sortKeys : List String → List String
  | [] => []
  | k :: ks => insertKeySorted k (sortKeys ks)

/-- `hashParams` from store.ts.  The SHA-256 digest (truncated to 16 hex
characters) is abstracted as the function parameter `h` applied to the
normalized string; every claim about fingerprints depends only on the
normalization `JSON.stringify(\x7b toolName, params \x7d, sortedKeys)`. -/
def hashParams (h : String → String) (toolName : String)
    (params : List (String × JsonVal)) : String :=
  let sortedKeys := sortKeys (params.map Prod.fst)
  let normalized := jsonStringifyWith sortedKeys
    (.obj [("toolName", .str toolName), ("params", .obj params)])
  h normalized

/-! ## Constants (constants.ts) -/

/-- Default escalation threshold (clarity times stakes). -/
def DEFAULT_ESCALATION_THRESHOLD : Nat := 36

/-- Default pending timeout: 5 minutes. -/
def DEFAULT_PENDING_TIMEOUT_MS : Nat := 300000

/-- Default approval window: 30 seconds. -/
def DEFAULT_APPROVAL_WINDOW_MS : Nat := 30000

/-- Tools that affect system infrastructure. -/
def INFRASTRUCTURE_TOOLS : List String := ["gateway", "exec", "Write", "Edit"]

/-- Tools with external effects. -/
def EXTERNAL_EFFECT_TOOLS : List String := ["message", "browser", "cron", "nodes", "tts"]

/-- Default tools exempt from evaluation, as declared in constants.ts.
Note: this constant is declared by the source but never referenced by
hook.ts, which resolves the exemption list as config.neverBlock or []. -/
def DEFAULT_NEVER_BLOCK : List String :=
  ["memory_search", "memory_get", "session_status", "Read", "web_search",
   "web_fetch", "image", "sessions_list", "sessions_history", "agents_list"]

/-! ## Configuration (types.ts); absent optional fields model absent
JavaScript properties. -/

/-- GuardianAngelConfig from types.ts, restricted to the fields the gate
and the store read. -/
structure GuardianAngelConfig where
  enabled : Option Bool := none
  escalationThreshold : Option Nat := none
  pendingTimeoutMs : Option Nat := none
  approvalWindowMs : Option Nat := none
  alwaysBlock : Option (List String) := none
  neverBlock : Option (List String) := none
deriving Repr, DecidableEq

/-- The configuration obtained from an empty pluginConfig object, i.e.
the default configuration: every field absent. -/
def defaultConfig : GuardianAngelConfig := {}

/-- JavaScript `v || d` on an optional number: an absent field and 0 both
fall back to the default. -/
def jsOrNat : Option Nat → Nat → Nat
  | none, d => d
  | some n, d => if n == 0 then d else n

/-- `config.pendingTimeoutMs || DEFAULT_PENDING_TIMEOUT_MS` in createStore. -/
def resolvedPendingTimeoutMs (cfg : GuardianAngelConfig) : Nat :=
  jsOrNat cfg.pendingTimeoutMs DEFAULT_PENDING_TIMEOUT_MS

/-- `config.approvalWindowMs || DEFAULT_APPROVAL_WINDOW_MS` in createStore. -/
def resolvedApprovalWindowMs (cfg : GuardianAngelConfig) : Nat :=
  jsOrNat cfg.approvalWindowMs DEFAULT_APPROVAL_WINDOW_MS

/-! ## Escalation store (store.ts).  The persisted file content is the
StoreState value threaded through every operation; load() reads it and
save() writes it.  The clock (Date.now()), the generated nonce and the
success of the file write are explicit arguments. -/

/-- PendingEscalation record from types.ts. -/
structure PendingEscalation where
  nonce : String
  paramsHash : String
  toolName : String
  params : List (String × JsonVal)
  createdAt : Nat
  expiresAt : Nat
deriving Repr

/-- ApprovedAction record from types.ts. -/
structure ApprovedAction where
  nonce : String
  paramsHash : String
  toolName : String
  approvedAt : Nat
  expiresAt : Nat
deriving Repr, DecidableEq

/-- StoreState from types.ts: pending keyed by nonce, approved keyed by
params fingerprint. -/
structure StoreState where
  pending : List (String × PendingEscalation) := []
  approved : List (String × ApprovedAction) := []
deriving Repr

/-- The empty store, as load() yields for an absent or unreadable file. -/
def emptyStore : StoreState := {}

/-- `save` from store.ts: the write error is caught and only logged, so
when the write fails the persisted file silently keeps its previous
content, and the caller is not told. -/
def save (writeOk : Bool) (file newState : StoreState) : StoreState :=
  if writeOk then newState else file

/-- `createPending` from store.ts: inserts a pending escalation under the
freshly generated nonce and returns that nonce, whether or not the save
succeeded. -/
def createPending (cfg : GuardianAngelConfig) (file : StoreState) (now : Nat)
    (writeOk : Bool) (nonce : String) (paramsHash toolName : String)
    (params : List (String × JsonVal)) : String × StoreState :=
  let entry : PendingEscalation :=
    { nonce := nonce, paramsHash := paramsHash, toolName := toolName,
      params := params, createdAt := now,
      expiresAt := now + resolvedPendingTimeoutMs cfg }
  (nonce, save writeOk file { file with pending := alistInsert file.pending nonce entry })

/-- Result type of approvePending. -/
inductive ApproveResult where
  | ok (windowSeconds : Nat)
  | err (error : String)
deriving Repr, DecidableEq

/-- JavaScript `Math.round(w / 1000)` for a natural number of
milliseconds. -/
def jsRoundDiv1000 (w : Nat) : Nat := (w + 500) / 1000

/-- `approvePending` from store.ts. -/
def approvePending (cfg : GuardianAngelConfig) (file : StoreState) (now : Nat)
    (writeOk : Bool) (nonce : String) : ApproveResult × StoreState :=
  match alistGet file.pending nonce with
  | none => (.err "Nonce not found or already used", file)
  | some pending =>
    if now > pending.expiresAt then
      (.err "Escalation expired. Please retry the original action.",
       save writeOk file { file with pending := alistErase file.pending nonce })
    else
      let entry : ApprovedAction :=
        { nonce := nonce, paramsHash := pending.paramsHash,
          toolName := pending.toolName, approvedAt := now,
          expiresAt := now + resolvedApprovalWindowMs cfg }
      (.ok (jsRoundDiv1000 (resolvedApprovalWindowMs cfg)),
       save writeOk file
         { pending := alistErase file.pending nonce,
           approved := alistInsert file.approved pending.paramsHash entry })

/-- `consumeApproval` from store.ts. -/
def consumeApproval (file : StoreState) (now : Nat) (writeOk : Bool)
    (paramsHash : String) : Option String × StoreState :=
  match alistGet file.approved paramsHash with
  | none => (none, file)
  | some approved =>
    if now > approved.expiresAt then
      (none, save writeOk file { file with approved := alistErase file.approved paramsHash })
    else
      (some approved.nonce,
       save writeOk file { file with approved := alistErase file.approved paramsHash })

/-- `cleanup` from store.ts: sweeps expired records from both maps and
saves only when something was removed. -/
def cleanup (file : StoreState) (now : Nat) (writeOk : Bool) : StoreState :=
  let changed :=
    file.pending.any (fun p => now > p.2.expiresAt) ||
    file.approved.any (fun p => now > p.2.expiresAt)
  if changed then
    save writeOk file
      { pending := file.pending.filter (fun p => !(now > p.2.expiresAt)),
        approved := file.approved.filter (fun p => !(now > p.2.expiresAt)) }
  else file

/-! ## Evaluator (evaluate.ts).  The JavaScript regular expressions are
named by the JsPattern tokens below; their matching semantics is the
opaque parameter regexTest (RegExp.prototype.test) respectively
regexCapture (String.prototype.match returning the first capture
group).  No verified claim depends on which strings they match. -/

/-- One token per regular-expression literal in evaluate.ts. -/
inductive JsPattern where
  | sexualContent
  | childSexualContent
  | extremeViolence
  | terrorism
  | fraudDeception
  | weapons
  | graphicContent
  | drugRelated
  | promptQuotedCapture
  | promptUnquotedCapture
deriving Repr, DecidableEq

/-- IMAGE_GEN_PATTERNS from evaluate.ts. -/
def IMAGE_GEN_PATTERNS : List String :=
  ["generate_image.py", "nano-banana", "openai-image", "dall-e",
   "midjourney", "stable-diffusion", "image-gen"]

/-- HARMFUL_IMAGE_PATTERNS from evaluate.ts: pattern token and category. -/
def HARMFUL_IMAGE_PATTERNS : List (JsPattern × String) :=
  [(.sexualContent, "pornography"),
   (.childSexualContent, "child exploitation"),
   (.extremeViolence, "extreme violence"),
   (.terrorism, "terrorism"),
   (.fraudDeception, "fraud/deception")]

/-- CONCERNING_IMAGE_PATTERNS from evaluate.ts: pattern token and reason. -/
def CONCERNING_IMAGE_PATTERNS : List (JsPattern × String) :=
  [(.weapons, "weapons depicted"),
   (.graphicContent, "potentially graphic content"),
   (.drugRelated, "drug-related content")]

/-- `String(params.key || "")`: reads one parameter; a falsy or absent
value yields the empty string. -/
def paramString (params : List (String × JsonVal)) (key : String) : String :=
  match alistGet params key with
  | none => ""
  | some v => if jsFalsy v then "" else jsToString v

/-- JavaScript `params.k1 || params.k2 || ...`: the first present truthy
value in the chain, if any. -/
def firstTruthyParam (params : List (String × JsonVal)) : List String → Option JsonVal
  | [] => none
  | k :: rest =>
    match alistGet params k with
    | none => firstTruthyParam params rest
    | some v => if jsFalsy v then firstTruthyParam params rest else some v

/-- `String(params.k1 || params.k2 || "")`. -/
def paramStringChain (params : List (String × JsonVal)) (keys : List String) : String :=
  match firstTruthyParam params keys with
  | none => ""
  | some v => jsToString v

/-- `isImageGenerationCommand` from evaluate.ts. -/
def isImageGenerationCommand (cmd : String) : Bool :=
  IMAGE_GEN_PATTERNS.any fun p => strIncludes (strToLower cmd) p

section Evaluator

variable (regexTest : JsPattern → String → Bool)
variable (regexCapture : JsPattern → String → Option String)

/-- `extractImagePrompt` from evaluate.ts: the quoted capture first, then
the unquoted capture trimmed. -/
def extractImagePrompt (cmd : String) : Option String :=
  match regexCapture .promptQuotedCapture cmd with
  | some p => some p
  | none =>
    match regexCapture .promptUnquotedCapture cmd with
    | some p => some p.trim
    | none => none

/-- Result of checkImagePromptContent. -/
structure ContentCheck where
  block : Bool
  reason : String
deriving Repr, DecidableEq

/-- `checkImagePromptContent` from evaluate.ts: the first matching harmful
pattern blocks; otherwise the first matching concerning pattern yields a
non-blocking concern; otherwise nothing. -/
def checkImagePromptContent (prompt : String) : Option ContentCheck :=
  match HARMFUL_IMAGE_PATTERNS.find? (fun p => regexTest p.1 prompt) with
  | some p =>
    some { block := true,
           reason := "Image request contains " ++ p.2 ++ " (violation of dignity)" }
  | none =>
    match CONCERNING_IMAGE_PATTERNS.find? (fun p => regexTest p.1 prompt) with
    | some p => some { block := false, reason := "Image request may contain " ++ p.2 }
    | none => none

/-- `checkIntrinsicEvil` from evaluate.ts. -/
def checkIntrinsicEvil (toolName : String)
    (params : List (String × JsonVal)) : Option String :=
  if toolName == "exec" then
    let cmd := paramString params "command"
    let lowerCmd := strToLower cmd
    if strIncludes lowerCmd "rm -rf /" && !strIncludes lowerCmd "rm -rf /tmp" then
      some "Command would destroy root filesystem"
    else if strIncludes lowerCmd ":()\x7b :|:& \x7d;:" then
      some "Fork bomb detected"
    else if strIncludes lowerCmd "mkfs" && !strIncludes lowerCmd "--dry-run" then
      some "Filesystem format command detected"
    else if strIncludes lowerCmd "> /dev/sd" ||
        (strIncludes lowerCmd "dd if=" && strIncludes lowerCmd "of=/dev/") then
      some "Raw disk write detected"
    else if isImageGenerationCommand cmd then
      match extractImagePrompt regexCapture cmd with
      | some prompt =>
        match checkImagePromptContent regexTest prompt with
        | some check => if check.block then some check.reason else none
        | none => none
      | none => none
    else none
  else none

/-- First accumulation step of assessClarity (evaluate.ts): the
infrastructure-tool penalty, with the image-generation carve-out. -/
def clarityInfraStep (toolName : String) (params : List (String × JsonVal))
    (clarity : Nat) : Nat :=
  if INFRASTRUCTURE_TOOLS.contains toolName then
    if toolName == "exec" then
      let cmd := paramString params "command"
      if isImageGenerationCommand cmd then
        match extractImagePrompt regexCapture cmd with
        | some prompt =>
          match checkImagePromptContent regexTest prompt with
          | some check => if !check.block then clarity + 3 else clarity
          | none => clarity
        | none => clarity
      else clarity + 3
    else clarity + 3
  else clarity

/-- External-effect penalty step of assessClarity. -/
def clarityExternalStep (toolName : String) (clarity : Nat) : Nat :=
  if EXTERNAL_EFFECT_TOOLS.contains toolName then clarity + 2 else clarity

/-- Gateway parameter-analysis step of assessClarity. -/
def clarityGatewayStep (toolName : String) (params : List (String × JsonVal))
    (clarity : Nat) : Nat :=
  if toolName == "gateway" then
    let action := paramString params "action"
    let clarity :=
      if action == "config.apply" || action == "config.patch" then
        let c := clarity + 3
        let raw := paramString params "raw"
        if strIncludes raw "model" || strIncludes raw "defaultModel" then c + 2 else c
      else clarity
    let clarity := if action == "update.run" then clarity + 2 else clarity
    if action == "restart" then clarity + 1 else clarity
  else clarity

/-- Exec command-analysis step of assessClarity. -/
def clarityExecStep (toolName : String) (params : List (String × JsonVal))
    (clarity : Nat) : Nat :=
  if toolName == "exec" then
    let cmd := paramString params "command"
    if !isImageGenerationCommand cmd then
      let clarity := if strIncludes cmd "sudo" then clarity + 2 else clarity
      let clarity :=
        if strIncludes cmd "rm " || strIncludes cmd "rm\t" then clarity + 2 else clarity
      if strIncludes cmd "|" || strIncludes cmd ";" then clarity + 1 else clarity
    else clarity
  else clarity

/-- Message broadcast step of assessClarity. -/
def clarityMessageStep (toolName : String) (params : List (String × JsonVal))
    (clarity : Nat) : Nat :=
  if toolName == "message" then
    let clarity := clarity + 1
    match alistGet params "targets" with
    | some (.arr targets) => if targets.length > 1 then clarity + 2 else clarity
    | _ => clarity
  else clarity

/-- Cron scheduling step of assessClarity. -/
def clarityCronStep (toolName : String) (params : List (String × JsonVal))
    (clarity : Nat) : Nat :=
  if toolName == "cron" then
    let action := paramString params "action"
    if action == "add" || action == "update" then clarity + 2 else clarity
  else clarity

/-- `assessClarity` from evaluate.ts: starts at 1, accumulates the
additive penalty steps in source order, clamps at 10. -/
def assessClarity (toolName : String) (params : List (String × JsonVal)) : Nat :=
  min
    (clarityCronStep toolName params
      (clarityMessageStep toolName params
        (clarityExecStep toolName params
          (clarityGatewayStep toolName params
            (clarityExternalStep toolName
              (clarityInfraStep regexTest regexCapture toolName params 1))))))
    10

/-- First accumulation step of assessStakes (evaluate.ts): the
infrastructure-tool penalty, with the image-generation carve-out. -/
def stakesInfraStep (toolName : String) (params : List (String × JsonVal))
    (stakes : Nat) : Nat :=
  if INFRASTRUCTURE_TOOLS.contains toolName then
    if toolName == "exec" then
      let cmd := paramString params "command"
      if isImageGenerationCommand cmd then
        match extractImagePrompt regexCapture cmd with
        | some prompt =>
          match checkImagePromptContent regexTest prompt with
          | some check => if !check.block then stakes + 2 else stakes
          | none => stakes
        | none => stakes
      else stakes + 3
    else stakes + 3
  else stakes

/-- Gateway parameter-analysis step of assessStakes. -/
def stakesGatewayStep (toolName : String) (params : List (String × JsonVal))
    (stakes : Nat) : Nat :=
  if toolName == "gateway" then
    let action := paramString params "action"
    let stakes :=
      if action == "config.apply" || action == "config.patch" then
        let s := stakes + 2
        let raw := paramString params "raw"
        let s := if strIncludes raw "model" || strIncludes raw "defaultModel" then s + 3 else s
        if strIncludes raw "plugin" then s + 2 else s
      else stakes
    let stakes := if action == "update.run" then stakes + 3 else stakes
    if action == "restart" then stakes + 1 else stakes
  else stakes

/-- Exec command-analysis step of assessStakes. -/
def stakesExecStep (toolName : String) (params : List (String × JsonVal))
    (stakes : Nat) : Nat :=
  if toolName == "exec" then
    let cmd := paramString params "command"
    if !isImageGenerationCommand cmd then
      let stakes :=
        if strIncludes cmd "rm " && !strIncludes cmd "-i" then stakes + 3 else stakes
      let stakes :=
        if strIncludes cmd "kill" || strIncludes cmd "pkill" then stakes + 2 else stakes
      let stakes :=
        if strIncludes cmd "shutdown" || strIncludes cmd "reboot" then stakes + 5 else stakes
      let stakes := if strIncludes cmd "sudo" then stakes + 2 else stakes
      if strIncludes cmd "openclaw" && (strIncludes cmd "stop" || strIncludes cmd "kill") then
        stakes + 4
      else stakes
    else stakes
  else stakes

/-- Write and Edit path-analysis step of assessStakes. -/
def stakesWriteStep (toolName : String) (params : List (String × JsonVal))
    (stakes : Nat) : Nat :=
  if toolName == "Write" || toolName == "Edit" then
    let path := paramStringChain params ["path", "file_path"]
    let stakes :=
      if strIncludes path "openclaw" && strIncludes path "config" then stakes + 3 else stakes
    if strIncludes path ".env" || strIncludes path "secret" ||
        strIncludes path "credential" then
      stakes + 2
    else stakes
  else stakes

/-- Message relationship-stakes step of assessStakes. -/
def stakesMessageStep (toolName : String) (stakes : Nat) : Nat :=
  if toolName == "message" then stakes + 2 else stakes

/-- Cron scheduling step of assessStakes. -/
def stakesCronStep (toolName : String) (params : List (String × JsonVal))
    (stakes : Nat) : Nat :=
  if toolName == "cron" then
    let action := paramString params "action"
    if action == "add" || action == "update" then stakes + 2 else stakes
  else stakes

/-- `assessStakes` from evaluate.ts: starts at 1, accumulates the
additive penalty steps in source order, clamps at 10. -/
def assessStakes (toolName : String) (params : List (String × JsonVal)) : Nat :=
  min
    (stakesCronStep toolName params
      (stakesMessageStep toolName
        (stakesWriteStep toolName params
          (stakesExecStep toolName params
            (stakesGatewayStep toolName params
              (stakesInfraStep regexTest regexCapture toolName params 1))))))
    10

/-- `buildEscalationReason` from evaluate.ts. -/
def buildEscalationReason (toolName : String) (params : List (String × JsonVal))
    (clarity stakes score : Nat) : String :=
  let parts : List String :=
    ["Action: " ++ toolName,
     "Risk score: " ++ toString score ++ " (clarity=" ++ toString clarity ++
       ", stakes=" ++ toString stakes ++ ")"]
  let parts :=
    if toolName == "gateway" then
      let action := paramString params "action"
      let parts :=
        if strIncludes action "config" then parts ++ ["This modifies OpenClaw configuration"]
        else parts
      let parts :=
        if action == "update.run" then parts ++ ["This updates OpenClaw software"] else parts
      if action == "restart" then parts ++ ["This will restart OpenClaw"] else parts
    else parts
  let parts :=
    if toolName == "exec" then
      let cmd := paramString params "command"
      if isImageGenerationCommand cmd then
        let parts :=
          match extractImagePrompt regexCapture cmd with
          | some prompt =>
            match checkImagePromptContent regexTest prompt with
            | some check => if !check.block then parts ++ [check.reason] else parts
            | none => parts
          | none => parts
        parts ++ ["Image generation"]
      else
        parts ++ ["Command: " ++ cmd.take 80 ++ (if cmd.length > 80 then "..." else "")]
    else parts
  let parts :=
    if toolName == "message" then
      match firstTruthyParam params ["to", "target", "targets"] with
      | some v => parts ++ ["Recipient: " ++ (jsToString v).take 50]
      | none => parts
    else parts
  String.intercalate " | " parts

/-- The three decisions of the evaluator. -/
inductive Decision where
  | allow
  | block
  | escalate
deriving Repr, DecidableEq

/-- EvaluationResult from types.ts. -/
structure EvaluationResult where
  decision : Decision
  reason : Option String := none
  clarity : Option Nat := none
  stakes : Option Nat := none
deriving Repr, DecidableEq

/-- `evaluate` from evaluate.ts: intrinsic-evil check first, then the
clarity times stakes score against the configured threshold. -/
def evaluate (toolName : String) (params : List (String × JsonVal))
    (cfg : GuardianAngelConfig) : EvaluationResult :=
  match checkIntrinsicEvil regexTest regexCapture toolName params with
  | some reason => { decision := .block, reason := some reason }
  | none =>
    let clarity := assessClarity regexTest regexCapture toolName params
    let stakes := assessStakes regexTest regexCapture toolName params
    let score := clarity * stakes
    let threshold := cfg.escalationThreshold.getD DEFAULT_ESCALATION_THRESHOLD
    if score ≥ threshold then
      { decision := .escalate,
        reason := some (buildEscalationReason regexTest regexCapture toolName params
          clarity stakes score),
        clarity := some clarity, stakes := some stakes }
    else
      { decision := .allow, clarity := some clarity, stakes := some stakes }

end Evaluator

/-! ## Gate controller (hook.ts). -/

/-- The denial payload returned by the hook; a `none` hook result models
the JavaScript `return;` (implicit allow). -/
structure BeforeToolCallResult where
  block : Bool
  blockReason : String
deriving Repr, DecidableEq

/-- Outcome of one gate invocation: the hook result, the persisted store
state afterwards, and whether step 5 (the evaluator) ran.  The last
field instruments the embedding so that claims about the evaluator
being bypassed are statable. -/
structure GateOutcome where
  result : Option BeforeToolCallResult
  state : StoreState
  evaluatorRan : Bool
deriving Repr

/-- JavaScript `s || d` on an optional string: absent and empty fall back. -/
def jsOrStr : Option String → String → String
  | none, d => d
  | some s, d => if s == "" then d else s

/-- JavaScript `l || []` on an optional array: a present array, even
empty, is truthy and kept. -/
def jsOrEmptyList : Option (List String) → List String
  | none => []
  | some l => l

/-- A JavaScript template literal `${x}` on an optional string renders an
absent value as the text undefined. -/
def templateOptStr : Option String → String
  | none => "undefined"
  | some s => s

/-- The `escalate` helper at the bottom of hook.ts: stores a pending
escalation under a fresh nonce and builds the structured block reason. -/
def escalate (cfg : GuardianAngelConfig) (file : StoreState) (now : Nat)
    (writeOk : Bool) (freshNonce : String) (toolName : String)
    (params : List (String × JsonVal)) (paramsHash : String) (reason : String) :
    BeforeToolCallResult × StoreState :=
  let r := createPending cfg file now writeOk freshNonce paramsHash toolName params
  ({ block := true, blockReason := "GUARDIAN_ANGEL_ESCALATE|" ++ r.1 ++ "|" ++ reason }, r.2)

section Gate

variable (hash : String → String)
variable (regexTest : JsPattern → String → Bool)
variable (regexCapture : JsPattern → String → Option String)

/-- The before_tool_call handler from hook.ts, one invocation: disabled
check, exemption check against `config.neverBlock || []`, approval
consumption, alwaysBlock check, then the evaluator. -/
def createBeforeToolCallHandler (cfg : GuardianAngelConfig) (file : StoreState)
    (now : Nat) (writeOk : Bool) (freshNonce : String) (toolName : String)
    (params : List (String × JsonVal)) : GateOutcome :=
  if cfg.enabled == some false then
    { result := none, state := file, evaluatorRan := false }
  else
    let neverBlock := jsOrEmptyList cfg.neverBlock
    if neverBlock.contains toolName then
      { result := none, state := file, evaluatorRan := false }
    else
      let paramsHash := hashParams hash toolName params
      let consumed := consumeApproval file now writeOk paramsHash
      match consumed.1 with
      | some _ => { result := none, state := consumed.2, evaluatorRan := false }
      | none =>
        let alwaysBlock := jsOrEmptyList cfg.alwaysBlock
        if alwaysBlock.contains toolName then
          let r := escalate cfg consumed.2 now writeOk freshNonce toolName params paramsHash
            ("Tool \x27" ++ toolName ++ "\x27 requires explicit approval per configuration")
          { result := some r.1, state := r.2, evaluatorRan := false }
        else
          let evalResult := evaluate regexTest regexCapture toolName params cfg
          match evalResult.decision with
          | .allow => { result := none, state := consumed.2, evaluatorRan := true }
          | .block =>
            { result := some
                { block := true,
                  blockReason := "GUARDIAN_ANGEL_BLOCK|" ++ templateOptStr evalResult.reason },
              state := consumed.2, evaluatorRan := true }
          | .escalate =>
            let r := escalate cfg consumed.2 now writeOk freshNonce toolName params paramsHash
              (jsOrStr evalResult.reason "High-stakes action requires approval")
            { result := some r.1, state := r.2, evaluatorRan := true }

end Gate

/-! ## Association-list and key-sorting lemmas -/

theorem alistGet_insert_self {α : Type} (m : List (String × α)) (k : String) (v : α) :
    alistGet (alistInsert m k v) k = some v := by
  induction m with
  | nil => simp [alistInsert, alistGet]
  | cons head tail ih =>
    obtain ⟨k1, w⟩ := head
    by_cases h : k1 == k
    · simp [alistInsert, alistGet, h]
    · simp [alistInsert, alistGet, h, ih]

theorem alistGet_erase_self {α : Type} (m : List (String × α)) (k : String) :
    alistGet (alistErase m k) k = none := by
  induction m with
  | nil => simp [alistErase, alistGet]
  | cons head tail ih =>
    obtain ⟨k1, w⟩ := head
    by_cases h : k1 == k
    · simp [alistErase, h, ih]
    · simp [alistErase, alistGet, h, ih]

theorem mem_insertKeySorted {k s : String} :
    ∀ {l : List String}, k ∈ insertKeySorted s l → k = s ∨ k ∈ l := by
  intro l
  induction l with
  | nil => intro h; simp [insertKeySorted] at h; simp [h]
  | cons t ts ih =>
    intro h
    simp only [insertKeySorted] at h
    split at h
    · simpa using h
    · rcases List.mem_cons.mp h with h | h
      · exact Or.inr (by simp [h])
      · rcases ih h with h | h
        · exact Or.inl h
        · exact Or.inr (by simp [h])

theorem mem_sortKeys {k : String} : ∀ {l : List String}, k ∈ sortKeys l → k ∈ l := by
  intro l
  induction l with
  | nil => intro h; simp [sortKeys] at h
  | cons t ts ih =>
    intro h
    simp only [sortKeys] at h
    rcases mem_insertKeySorted h with h | h
    · simp [h]
    · exact List.mem_cons_of_mem _ (ih h)

theorem mem_dedupKeys {k : String} :
    ∀ {l seen : List String}, k ∈ dedupKeys seen l → k ∈ l := by
  intro l
  induction l with
  | nil => intro seen h; simp [dedupKeys] at h
  | cons t ts ih =>
    intro seen h
    simp only [dedupKeys] at h
    split at h
    · exact List.mem_cons_of_mem _ (ih h)
    · rcases List.mem_cons.mp h with h | h
      · simp [h]
      · exact List.mem_cons_of_mem _ (ih h)

theorem jsonStringifyWith_obj (keys : List String) (fs : List (String × JsonVal)) :
    jsonStringifyWith keys (.obj fs) =
      "\x7b" ++ String.intercalate "," (objParts keys (jsonStringifyFields keys fs)) ++ "\x7d" :=
  rfl

/-- The normalization inside hashParams is the constant two-character
string of an empty JSON object whenever no parameter is literally named
toolName or params: the array replacer acts as a property whitelist on
the top-level wrapper object, and its two properties toolName and
params are never among the sorted parameter keys. -/
theorem hashParams_constant (h : String → String) (toolName : String)
    (params : List (String × JsonVal))
    (hk : ∀ k ∈ params.map Prod.fst, k ≠ "toolName" ∧ k ≠ "params") :
    hashParams h toolName params = h "\x7b\x7d" := by
  simp only [hashParams]
  congr 1
  rw [jsonStringifyWith_obj]
  have hnil : objParts (sortKeys (params.map Prod.fst))
      (jsonStringifyFields (sortKeys (params.map Prod.fst))
        [("toolName", .str toolName), ("params", .obj params)]) = [] := by
    apply List.filterMap_eq_nil_iff.mpr
    intro k hmem
    have hk2 := hk k (mem_sortKeys (mem_dedupKeys hmem))
    have h1 : (("toolName" : String) == k) = false :=
      beq_eq_false_iff_ne.mpr (Ne.symm hk2.1)
    have h2 : (("params" : String) == k) = false :=
      beq_eq_false_iff_ne.mpr (Ne.symm hk2.2)
    simp only [jsonStringifyFields, alistGet, h1, h2, Bool.false_eq_true, if_false]
    rfl
  rw [hnil]
  rfl

/-! ## Concrete fixtures used by witnesses -/

def samplePending : PendingEscalation :=
  { nonce := "ab12cd34", paramsHash := "deadbeefdeadbeef", toolName := "gateway",
    params := [("action", .str "config.apply")], createdAt := 1000, expiresAt := 301000 }

def samplePendingStore : StoreState :=
  { pending := [("ab12cd34", samplePending)], approved := [] }

def sampleApproved : ApprovedAction :=
  { nonce := "ab12cd34", paramsHash := "deadbeefdeadbeef", toolName := "gateway",
    approvedAt := 2000, expiresAt := 32000 }

def sampleApprovedStore : StoreState :=
  { pending := [], approved := [("deadbeefdeadbeef", sampleApproved)] }

def expiredPending : PendingEscalation :=
  { nonce := "ab12cd34", paramsHash := "deadbeefdeadbeef", toolName := "gateway",
    params := [("action", .str "config.apply")], createdAt := 1000, expiresAt := 4000 }

def expiredApproved : ApprovedAction :=
  { nonce := "99aa88bb", paramsHash := "deadbeefdeadbeef", toolName := "gateway",
    approvedAt := 2000, expiresAt := 4500 }

def expiredPendingStore : StoreState :=
  { pending := [("ab12cd34", expiredPending)], approved := [] }

def expiredApprovedStore : StoreState :=
  { pending := [], approved := [("deadbeefdeadbeef", expiredApproved)] }

/-- Shared shape of a successful approvePending call. -/
theorem approvePending_success (cfg : GuardianAngelConfig) (file : StoreState) (now : Nat)
    (nonce : String) (p : PendingEscalation)
    (hget : alistGet file.pending nonce = some p) (hlive : ¬ now > p.expiresAt) :
    approvePending cfg file now true nonce =
      (.ok (jsRoundDiv1000 (resolvedApprovalWindowMs cfg)),
       { pending := alistErase file.pending nonce,
         approved := alistInsert file.approved p.paramsHash
           { nonce := nonce, paramsHash := p.paramsHash, toolName := p.toolName,
             approvedAt := now, expiresAt := now + resolvedApprovalWindowMs cfg } }) := by
  unfold approvePending
  rw [hget]
  simp [hlive, save]

/-- Shared shape of approvePending on an absent nonce. -/
theorem approvePending_notFound (cfg : GuardianAngelConfig) (m : StoreState) (t : Nat)
    (w : Bool) (n : String) (hn : alistGet m.pending n = none) :
    approvePending cfg m t w n = (.err "Nonce not found or already used", m) := by
  unfold approvePending
  rw [hn]

/-- Claim C4: an approval is consumed at most once: on a live unexpired
ApprovedAction the first consumeApproval deletes the record and returns
its nonce, and a second consumeApproval on the resulting state, at any
later time, returns none. -/
theorem c4_approval_single_use (file : StoreState) (now now2 : Nat) (fp : String)
    (a : ApprovedAction) (hget : alistGet file.approved fp = some a)
    (hlive : ¬ now > a.expiresAt) :
    (consumeApproval file now true fp).1 = some a.nonce ∧
    alistGet (consumeApproval file now true fp).2.approved fp = none ∧
    (consumeApproval (consumeApproval file now true fp).2 now2 true fp).1 = none := by
  have hstep : consumeApproval file now true fp =
      (some a.nonce, { file with approved := alistErase file.approved fp }) := by
    unfold consumeApproval
    rw [hget]
    simp [hlive, save]
  refine ⟨by rw [hstep], ?_, ?_⟩
  · rw [hstep]
    exact alistGet_erase_self _ _
  · rw [hstep]
    simp [consumeApproval, alistGet_erase_self]

theorem c4_witness :
    (consumeApproval sampleApprovedStore 3000 true "deadbeefdeadbeef").1 = some "ab12cd34" ∧
    alistGet (consumeApproval sampleApprovedStore 3000 true "deadbeefdeadbeef").2.approved
      "deadbeefdeadbeef" = none ∧
    (consumeApproval (consumeApproval sampleApprovedStore 3000 true "deadbeefdeadbeef").2
      3001 true "deadbeefdeadbeef").1 = none :=
  c4_approval_single_use sampleApprovedStore 3000 3001 "deadbeefdeadbeef" sampleApproved
    rfl (by decide)

/-- Claim C5: approving a nonce absent from the pending map fails with
the NotFound error and leaves the state unchanged, and approving the
same valid nonce twice yields ok then NotFound, because the first call
deletes the PendingEscalation. -/
theorem c5_notfound_and_double_approve (cfg : GuardianAngelConfig) (file : StoreState)
    (now now2 : Nat) (nonce : String) (p : PendingEscalation)
    (hget : alistGet file.pending nonce = some p) (hlive : ¬ now > p.expiresAt) :
    (∀ (m : StoreState) (t : Nat) (w : Bool) (n : String), alistGet m.pending n = none →
      approvePending cfg m t w n = (.err "Nonce not found or already used", m)) ∧
    (approvePending cfg file now true nonce).1 =
      .ok (jsRoundDiv1000 (resolvedApprovalWindowMs cfg)) ∧
    (approvePending cfg (approvePending cfg file now true nonce).2 now2 true nonce).1 =
      .err "Nonce not found or already used" := by
  have hstep := approvePending_success cfg file now nonce p hget hlive
  refine ⟨fun m t w n hn => approvePending_notFound cfg m t w n hn, by rw [hstep], ?_⟩
  rw [hstep,
    approvePending_notFound cfg _ now2 true nonce (by simpa using alistGet_erase_self file.pending nonce)]

theorem c5_witness :
    (approvePending defaultConfig samplePendingStore 2000 true "ab12cd34").1 =
      .ok (jsRoundDiv1000 (resolvedApprovalWindowMs defaultConfig)) ∧
    (approvePending defaultConfig
        (approvePending defaultConfig samplePendingStore 2000 true "ab12cd34").2
        2001 true "ab12cd34").1 =
      .err "Nonce not found or already used" := by
  obtain ⟨h1, h2, h3⟩ :=
    c5_notfound_and_double_approve defaultConfig samplePendingStore 2000 2001 "ab12cd34"
      samplePending rfl (by decide)
  exact ⟨h2, h3⟩

/-- Claim C6: no expired record ever grants access and access-time
checks remove it.  Two independent universals: for every store holding
an expired PendingEscalation under a nonce, approvePending fails with
the Expired error and deletes the record; and for every store holding
an expired ApprovedAction under a fingerprint, consumeApproval returns
none and deletes the record. -/
theorem c6_expired_never_grants :
    (∀ (cfg : GuardianAngelConfig) (file : StoreState) (now : Nat) (nonce : String)
        (p : PendingEscalation),
      alistGet file.pending nonce = some p → now > p.expiresAt →
      approvePending cfg file now true nonce =
        (.err "Escalation expired. Please retry the original action.",
         { file with pending := alistErase file.pending nonce }) ∧
      alistGet (approvePending cfg file now true nonce).2.pending nonce = none) ∧
    (∀ (file : StoreState) (now : Nat) (fp : String) (a : ApprovedAction),
      alistGet file.approved fp = some a → now > a.expiresAt →
      consumeApproval file now true fp =
        (none, { file with approved := alistErase file.approved fp }) ∧
      alistGet (consumeApproval file now true fp).2.approved fp = none) := by
  constructor
  · intro cfg file now nonce p hp hpe
    have h1 : approvePending cfg file now true nonce =
        (.err "Escalation expired. Please retry the original action.",
         { file with pending := alistErase file.pending nonce }) := by
      unfold approvePending
      rw [hp]
      simp [hpe, save]
    refine ⟨h1, ?_⟩
    rw [h1]
    exact alistGet_erase_self _ _
  · intro file now fp a ha hae
    have h2 : consumeApproval file now true fp =
        (none, { file with approved := alistErase file.approved fp }) := by
      unfold consumeApproval
      rw [ha]
      simp [hae, save]
    refine ⟨h2, ?_⟩
    rw [h2]
    exact alistGet_erase_self _ _

/-- Witness for C6, exercising each universal on a store that holds only
the one kind of expired record it speaks about. -/
theorem c6_witness :
    (approvePending defaultConfig expiredPendingStore 10000 true "ab12cd34" =
      (.err "Escalation expired. Please retry the original action.",
       { expiredPendingStore with
           pending := alistErase expiredPendingStore.pending "ab12cd34" }) ∧
    alistGet (approvePending defaultConfig expiredPendingStore 10000 true "ab12cd34").2.pending
      "ab12cd34" = none) ∧
    (consumeApproval expiredApprovedStore 10000 true "deadbeefdeadbeef" =
      (none, { expiredApprovedStore with
           approved := alistErase expiredApprovedStore.approved "deadbeefdeadbeef" }) ∧
    alistGet (consumeApproval expiredApprovedStore 10000 true
      "deadbeefdeadbeef").2.approved "deadbeefdeadbeef" = none) :=
  ⟨c6_expired_never_grants.1 defaultConfig expiredPendingStore 10000 "ab12cd34"
     expiredPending rfl (by decide),
   c6_expired_never_grants.2 expiredApprovedStore 10000 "deadbeefdeadbeef"
     expiredApproved rfl (by decide)⟩

/-- Claim C10: every successful approval returns windowSeconds equal to
the rounded approvalWindowMs over 1000 (jsRoundDiv1000 models the
JavaScript Math.round(w / 1000) on naturals), a constant independent of
the pending record and of its remaining time, and the new
ApprovedAction expires exactly approvalWindowMs after the approval. -/
theorem c10_window_constant (cfg : GuardianAngelConfig) (file : StoreState) (now : Nat)
    (nonce : String) (p : PendingEscalation)
    (hget : alistGet file.pending nonce = some p) (hlive : ¬ now > p.expiresAt) :
    approvePending cfg file now true nonce =
      (.ok (jsRoundDiv1000 (resolvedApprovalWindowMs cfg)),
       { pending := alistErase file.pending nonce,
         approved := alistInsert file.approved p.paramsHash
           { nonce := nonce, paramsHash := p.paramsHash, toolName := p.toolName,
             approvedAt := now, expiresAt := now + resolvedApprovalWindowMs cfg } }) ∧
    alistGet (approvePending cfg file now true nonce).2.approved p.paramsHash =
      some { nonce := nonce, paramsHash := p.paramsHash, toolName := p.toolName,
             approvedAt := now, expiresAt := now + resolvedApprovalWindowMs cfg } := by
  have hstep := approvePending_success cfg file now nonce p hget hlive
  refine ⟨hstep, ?_⟩
  rw [hstep]
  exact alistGet_insert_self _ _ _

theorem c10_witness :
    approvePending defaultConfig samplePendingStore 2000 true "ab12cd34" =
      (.ok (jsRoundDiv1000 (resolvedApprovalWindowMs defaultConfig)),
       { pending := alistErase samplePendingStore.pending "ab12cd34",
         approved := alistInsert samplePendingStore.approved "deadbeefdeadbeef"
           { nonce := "ab12cd34", paramsHash := "deadbeefdeadbeef", toolName := "gateway",
             approvedAt := 2000, expiresAt := 2000 + resolvedApprovalWindowMs defaultConfig } }) ∧
    alistGet (approvePending defaultConfig samplePendingStore 2000 true "ab12cd34").2.approved
      "deadbeefdeadbeef" =
      some { nonce := "ab12cd34", paramsHash := "deadbeefdeadbeef", toolName := "gateway",
             approvedAt := 2000, expiresAt := 2000 + resolvedApprovalWindowMs defaultConfig } :=
  c10_window_constant defaultConfig samplePendingStore 2000 "ab12cd34" samplePending
    rfl (by decide)


theorem le_clarityInfraStep (rt : JsPattern → String → Bool)
    (rc : JsPattern → String → Option String) (toolName : String)
    (params : List (String × JsonVal)) (v : Nat) :
    v ≤ clarityInfraStep rt rc toolName params v := by
  simp only [clarityInfraStep]; repeat' split
  all_goals omega

theorem le_clarityExternalStep (toolName : String) (v : Nat) :
    v ≤ clarityExternalStep toolName v := by
  simp only [clarityExternalStep]; repeat' split
  all_goals omega

theorem le_clarityGatewayStep (toolName : String) (params : List (String × JsonVal)) (v : Nat) :
    v ≤ clarityGatewayStep toolName params v := by
  simp only [clarityGatewayStep]; repeat' split
  all_goals omega

theorem le_clarityExecStep (toolName : String) (params : List (String × JsonVal)) (v : Nat) :
    v ≤ clarityExecStep toolName params v := by
  simp only [clarityExecStep]; repeat' split
  all_goals omega

theorem le_clarityMessageStep (toolName : String) (params : List (String × JsonVal)) (v : Nat) :
    v ≤ clarityMessageStep toolName params v := by
  simp only [clarityMessageStep]; repeat' split
  all_goals omega

theorem le_clarityCronStep (toolName : String) (params : List (String × JsonVal)) (v : Nat) :
    v ≤ clarityCronStep toolName params v := by
  simp only [clarityCronStep]; repeat' split
  all_goals omega

theorem le_stakesInfraStep (rt : JsPattern → String → Bool)
    (rc : JsPattern → String → Option String) (toolName : String)
    (params : List (String × JsonVal)) (v : Nat) :
    v ≤ stakesInfraStep rt rc toolName params v := by
  simp only [stakesInfraStep]; repeat' split
  all_goals omega

theorem le_stakesGatewayStep (toolName : String) (params : List (String × JsonVal)) (v : Nat) :
    v ≤ stakesGatewayStep toolName params v := by
  simp only [stakesGatewayStep]; repeat' split
  all_goals omega

theorem le_stakesExecStep (toolName : String) (params : List (String × JsonVal)) (v : Nat) :
    v ≤ stakesExecStep toolName params v := by
  simp only [stakesExecStep]; repeat' split
  all_goals omega

theorem le_stakesWriteStep (toolName : String) (params : List (String × JsonVal)) (v : Nat) :
    v ≤ stakesWriteStep toolName params v := by
  simp only [stakesWriteStep]; repeat' split
  all_goals omega

theorem le_stakesMessageStep (toolName : String) (v : Nat) :
    v ≤ stakesMessageStep toolName v := by
  simp only [stakesMessageStep]; repeat' split
  all_goals omega

theorem le_stakesCronStep (toolName : String) (params : List (String × JsonVal)) (v : Nat) :
    v ≤ stakesCronStep toolName params v := by
  simp only [stakesCronStep]; repeat' split
  all_goals omega

theorem assessClarity_bounds (rt : JsPattern → String → Bool)
    (rc : JsPattern → String → Option String)
    (toolName : String) (params : List (String × JsonVal)) :
    1 ≤ assessClarity rt rc toolName params ∧ assessClarity rt rc toolName params ≤ 10 := by
  unfold assessClarity
  have hA := le_clarityInfraStep rt rc toolName params 1
  have hB := le_clarityExternalStep toolName (clarityInfraStep rt rc toolName params 1)
  have hC := le_clarityGatewayStep toolName params
    (clarityExternalStep toolName (clarityInfraStep rt rc toolName params 1))
  have hD := le_clarityExecStep toolName params
    (clarityGatewayStep toolName params
      (clarityExternalStep toolName (clarityInfraStep rt rc toolName params 1)))
  have hE := le_clarityMessageStep toolName params
    (clarityExecStep toolName params
      (clarityGatewayStep toolName params
        (clarityExternalStep toolName (clarityInfraStep rt rc toolName params 1))))
  have hF := le_clarityCronStep toolName params
    (clarityMessageStep toolName params
      (clarityExecStep toolName params
        (clarityGatewayStep toolName params
          (clarityExternalStep toolName (clarityInfraStep rt rc toolName params 1)))))
  omega

theorem assessStakes_bounds (rt : JsPattern → String → Bool)
    (rc : JsPattern → String → Option String)
    (toolName : String) (params : List (String × JsonVal)) :
    1 ≤ assessStakes rt rc toolName params ∧ assessStakes rt rc toolName params ≤ 10 := by
  unfold assessStakes
  have hA := le_stakesInfraStep rt rc toolName params 1
  have hB := le_stakesGatewayStep toolName params (stakesInfraStep rt rc toolName params 1)
  have hC := le_stakesExecStep toolName params
    (stakesGatewayStep toolName params (stakesInfraStep rt rc toolName params 1))
  have hD := le_stakesWriteStep toolName params
    (stakesExecStep toolName params
      (stakesGatewayStep toolName params (stakesInfraStep rt rc toolName params 1)))
  have hE := le_stakesMessageStep toolName
    (stakesWriteStep toolName params
      (stakesExecStep toolName params
        (stakesGatewayStep toolName params (stakesInfraStep rt rc toolName params 1))))
  have hF := le_stakesCronStep toolName params
    (stakesMessageStep toolName
      (stakesWriteStep toolName params
        (stakesExecStep toolName params
          (stakesGatewayStep toolName params (stakesInfraStep rt rc toolName params 1)))))
  omega


/-- The two decision branches of evaluate below the intrinsic-evil gate
compare the score with the configured threshold. -/
theorem evaluate_decision_iff (rt : JsPattern → String → Bool)
    (rc : JsPattern → String → Option String)
    (toolName : String) (params : List (String × JsonVal)) (cfg : GuardianAngelConfig)
    (hni : checkIntrinsicEvil rt rc toolName params = none) :
    ((evaluate rt rc toolName params cfg).decision = .escalate ↔
      cfg.escalationThreshold.getD DEFAULT_ESCALATION_THRESHOLD ≤
        assessClarity rt rc toolName params * assessStakes rt rc toolName params) ∧
    ((evaluate rt rc toolName params cfg).decision = .allow ↔
      assessClarity rt rc toolName params * assessStakes rt rc toolName params <
        cfg.escalationThreshold.getD DEFAULT_ESCALATION_THRESHOLD) := by
  by_cases hs : cfg.escalationThreshold.getD DEFAULT_ESCALATION_THRESHOLD ≤
      assessClarity rt rc toolName params * assessStakes rt rc toolName params
  · constructor <;> simp [evaluate, hni, hs]
  · constructor <;> simp [evaluate, hni, hs] <;> omega

/-- When no live approval matches the fingerprint, consumeApproval yields
nothing and leaves the pending map untouched. -/
theorem consumeApproval_no_live (file : StoreState) (now : Nat) (w : Bool) (fp : String)
    (h : ∀ a, alistGet file.approved fp = some a → now > a.expiresAt) :
    (consumeApproval file now w fp).1 = none ∧
    (consumeApproval file now w fp).2.pending = file.pending := by
  cases hga : alistGet file.approved fp with
  | none => simp [consumeApproval, hga]
  | some a =>
    have hexp := h a hga
    unfold consumeApproval
    rw [hga]
    constructor
    · simp [hexp]
    · simp only [hexp, if_true, ite_true, save]
      split <;> rfl

/-- Every blocking verdict of checkImagePromptContent carries an
image-content reason, never the root-filesystem one. -/
theorem checkImagePromptContent_reason_ne (rt : JsPattern → String → Bool)
    (prompt : String) (c : ContentCheck)
    (hc : checkImagePromptContent rt prompt = some c) :
    c.reason ≠ "Command would destroy root filesystem" := by
  unfold checkImagePromptContent at hc
  rcases hf : HARMFUL_IMAGE_PATTERNS.find? (fun p => rt p.1 prompt) with _ | p
  · rw [hf] at hc
    rcases hg : CONCERNING_IMAGE_PATTERNS.find? (fun p => rt p.1 prompt) with _ | q
    · rw [hg] at hc
      exact Option.noConfusion hc
    · rw [hg] at hc
      have hm := List.mem_of_find?_eq_some hg
      simp only [Option.some.injEq] at hc
      subst hc
      simp only [CONCERNING_IMAGE_PATTERNS, List.mem_cons, List.not_mem_nil, or_false] at hm
      rcases hm with rfl | rfl | rfl <;> decide
  · rw [hf] at hc
    have hm := List.mem_of_find?_eq_some hf
    simp only [Option.some.injEq] at hc
    subst hc
    simp only [HARMFUL_IMAGE_PATTERNS, List.mem_cons, List.not_mem_nil, or_false] at hm
    rcases hm with rfl | rfl | rfl | rfl | rfl <;> decide

/-! ## Claim theorems -/

/-- Claim C1 (refuted; the code has a bug): the fingerprint is NOT a
function of the tool name and the parameter content.  The array replacer
passed to JSON.stringify filters the top-level wrapper object, whose
properties toolName and params are not among the sorted parameter keys,
so the normalized string is the constant empty JSON object: requests
that differ in a parameter value, or even in the tool name, hash to the
same digest, for any digest function. -/
theorem c1_fingerprint_collisions (h : String → String) :
    hashParams h "exec" [("command", .str "rm -rf /")] =
      hashParams h "exec" [("command", .str "ls")] ∧
    hashParams h "exec" [("command", .str "rm -rf /")] =
      hashParams h "message" [("to", .str "alice")] ∧
    hashParams h "exec" [("command", .str "rm -rf /")] = h "\x7b\x7d" :=
  ⟨rfl, rfl, rfl⟩

/-- Claim C2 (refuted; the code has a bug): under the default
configuration the hook resolves the exemption list as
`config.neverBlock || []`, never consulting DEFAULT_NEVER_BLOCK, so
memory_search is not exempt: the gate still answers ALLOW for it, but
only after running the Evaluator. -/
theorem c2_memory_search_not_exempt (h : String → String)
    (regexTest : JsPattern → String → Bool)
    (regexCapture : JsPattern → String → Option String)
    (now : Nat) (writeOk : Bool) (freshNonce : String)
    (params : List (String × JsonVal)) :
    DEFAULT_NEVER_BLOCK.contains "memory_search" = true ∧
    jsOrEmptyList defaultConfig.neverBlock = [] ∧
    (createBeforeToolCallHandler h regexTest regexCapture defaultConfig emptyStore now
        writeOk freshNonce "memory_search" params).evaluatorRan = true ∧
    (createBeforeToolCallHandler h regexTest regexCapture defaultConfig emptyStore now
        writeOk freshNonce "memory_search" params).result = none := by
  refine ⟨rfl, rfl, ?_, ?_⟩ <;> rfl

/-- Claim C3 counterexample: with the write failing, createPending still
returns the fresh nonce and approvePending still returns ok with the
window, while the persisted file keeps its previous content. -/
theorem c3_counterexample :
    createPending defaultConfig emptyStore 1000 false "ffee0011" "deadbeefdeadbeef" "exec"
        [("command", .str "rm -rf /etc")] =
      ("ffee0011", emptyStore) ∧
    approvePending defaultConfig samplePendingStore 2000 false "ab12cd34" =
      (.ok 30, samplePendingStore) := by
  constructor <;> rfl

/-- Claim C3 as amended: save swallows write failures, so a failed write
IS reported as success: createPending returns the nonce and
approvePending (on a live pending escalation) returns ok with the full
window, in both cases leaving the persisted file unchanged. -/
theorem c3_write_failure_swallowed (cfg : GuardianAngelConfig)
    (file : StoreState) (now : Nat) (nonce paramsHash toolName : String)
    (params : List (String × JsonVal)) :
    createPending cfg file now false nonce paramsHash toolName params = (nonce, file) ∧
    (∀ n p, alistGet file.pending n = some p → ¬ now > p.expiresAt →
      approvePending cfg file now false n =
        (.ok (jsRoundDiv1000 (resolvedApprovalWindowMs cfg)), file)) := by
  constructor
  · rfl
  · intro n p hget hlive
    unfold approvePending
    rw [hget]
    simp [hlive, save]

/-- Witness for C3: the amended statement evaluated on a concrete store. -/
theorem c3_write_failure_swallowed_witness :
    createPending defaultConfig samplePendingStore 5000 false "99aa88bb" "cafe" "exec" [] =
      ("99aa88bb", samplePendingStore) ∧
    approvePending defaultConfig samplePendingStore 5000 false "ab12cd34" =
      (.ok (jsRoundDiv1000 (resolvedApprovalWindowMs defaultConfig)), samplePendingStore) := by
  obtain ⟨h1, h2⟩ := c3_write_failure_swallowed defaultConfig samplePendingStore 5000
    "99aa88bb" "cafe" "exec" []
  exact ⟨h1, h2 "ab12cd34" samplePending rfl (by decide)⟩

/-- Claim C7: assessClarity and assessStakes always land in [1, 10], the
score in [1, 100], and whenever the intrinsic-evil check does not match,
evaluate answers escalate exactly when the score reaches the configured
threshold and allow otherwise. -/
theorem c7_risk_score_bounds_and_threshold (rt : JsPattern → String → Bool)
    (rc : JsPattern → String → Option String)
    (toolName : String) (params : List (String × JsonVal)) (cfg : GuardianAngelConfig) :
    1 ≤ assessClarity rt rc toolName params ∧ assessClarity rt rc toolName params ≤ 10 ∧
    1 ≤ assessStakes rt rc toolName params ∧ assessStakes rt rc toolName params ≤ 10 ∧
    1 ≤ assessClarity rt rc toolName params * assessStakes rt rc toolName params ∧
    assessClarity rt rc toolName params * assessStakes rt rc toolName params ≤ 100 ∧
    (checkIntrinsicEvil rt rc toolName params = none →
      ((evaluate rt rc toolName params cfg).decision = .escalate ↔
        cfg.escalationThreshold.getD DEFAULT_ESCALATION_THRESHOLD ≤
          assessClarity rt rc toolName params * assessStakes rt rc toolName params) ∧
      ((evaluate rt rc toolName params cfg).decision = .allow ↔
        assessClarity rt rc toolName params * assessStakes rt rc toolName params <
          cfg.escalationThreshold.getD DEFAULT_ESCALATION_THRESHOLD)) := by
  obtain ⟨hc1, hc10⟩ := assessClarity_bounds rt rc toolName params
  obtain ⟨hs1, hs10⟩ := assessStakes_bounds rt rc toolName params
  refine ⟨hc1, hc10, hs1, hs10, ?_, ?_,
    fun hni => evaluate_decision_iff rt rc toolName params cfg hni⟩
  · have := Nat.mul_le_mul hc1 hs1
    simpa using this
  · have := Nat.mul_le_mul hc10 hs10
    simpa using this

/-- Witness for C7 on the gateway config.apply scenario. -/
theorem c7_witness :
    1 ≤ assessClarity (fun _ _ => false) (fun _ _ => none) "gateway"
        [("action", .str "config.apply"), ("raw", .str "defaultModel")] ∧
    assessClarity (fun _ _ => false) (fun _ _ => none) "gateway"
        [("action", .str "config.apply"), ("raw", .str "defaultModel")] ≤ 10 ∧
    1 ≤ assessStakes (fun _ _ => false) (fun _ _ => none) "gateway"
        [("action", .str "config.apply"), ("raw", .str "defaultModel")] ∧
    assessStakes (fun _ _ => false) (fun _ _ => none) "gateway"
        [("action", .str "config.apply"), ("raw", .str "defaultModel")] ≤ 10 ∧
    1 ≤ assessClarity (fun _ _ => false) (fun _ _ => none) "gateway"
          [("action", .str "config.apply"), ("raw", .str "defaultModel")] *
        assessStakes (fun _ _ => false) (fun _ _ => none) "gateway"
          [("action", .str "config.apply"), ("raw", .str "defaultModel")] ∧
    assessClarity (fun _ _ => false) (fun _ _ => none) "gateway"
          [("action", .str "config.apply"), ("raw", .str "defaultModel")] *
        assessStakes (fun _ _ => false) (fun _ _ => none) "gateway"
          [("action", .str "config.apply"), ("raw", .str "defaultModel")] ≤ 100 ∧
    (((evaluate (fun _ _ => false) (fun _ _ => none) "gateway"
          [("action", .str "config.apply"), ("raw", .str "defaultModel")]
          defaultConfig).decision = .escalate ↔
        defaultConfig.escalationThreshold.getD DEFAULT_ESCALATION_THRESHOLD ≤
          assessClarity (fun _ _ => false) (fun _ _ => none) "gateway"
              [("action", .str "config.apply"), ("raw", .str "defaultModel")] *
            assessStakes (fun _ _ => false) (fun _ _ => none) "gateway"
              [("action", .str "config.apply"), ("raw", .str "defaultModel")]) ∧
      ((evaluate (fun _ _ => false) (fun _ _ => none) "gateway"
          [("action", .str "config.apply"), ("raw", .str "defaultModel")]
          defaultConfig).decision = .allow ↔
        assessClarity (fun _ _ => false) (fun _ _ => none) "gateway"
            [("action", .str "config.apply"), ("raw", .str "defaultModel")] *
          assessStakes (fun _ _ => false) (fun _ _ => none) "gateway"
            [("action", .str "config.apply"), ("raw", .str "defaultModel")] <
          defaultConfig.escalationThreshold.getD DEFAULT_ESCALATION_THRESHOLD)) := by
  have h := c7_risk_score_bounds_and_threshold (fun _ _ => false) (fun _ _ => none) "gateway"
    [("action", .str "config.apply"), ("raw", .str "defaultModel")] defaultConfig
  exact ⟨h.1, h.2.1, h.2.2.1, h.2.2.2.1, h.2.2.2.2.1, h.2.2.2.2.2.1,
    h.2.2.2.2.2.2 rfl⟩

/-- Claim C8: under the default configuration, an exec request with
command rm -rf / is blocked with the root-filesystem reason, as long as
no live approval matches its fingerprint, and the pending map is left
exactly as it was: no nonce is created. -/
theorem c8_rm_rf_root_blocked (h : String → String)
    (rt : JsPattern → String → Bool) (rc : JsPattern → String → Option String)
    (file : StoreState) (now : Nat) (freshNonce : String)
    (hnolive : ∀ a, alistGet file.approved
        (hashParams h "exec" [("command", .str "rm -rf /")]) = some a → now > a.expiresAt) :
    (createBeforeToolCallHandler h rt rc defaultConfig file now true freshNonce
        "exec" [("command", .str "rm -rf /")]).result =
      some { block := true,
             blockReason := "GUARDIAN_ANGEL_BLOCK|Command would destroy root filesystem" } ∧
    (createBeforeToolCallHandler h rt rc defaultConfig file now true freshNonce
        "exec" [("command", .str "rm -rf /")]).state.pending = file.pending := by
  obtain ⟨h1, h2⟩ := consumeApproval_no_live file now true
    (hashParams h "exec" [("command", .str "rm -rf /")]) hnolive
  rcases hc : consumeApproval file now true
      (hashParams h "exec" [("command", .str "rm -rf /")]) with ⟨r, st⟩
  rw [hc] at h1 h2
  simp only [] at h1 h2
  subst h1
  simp only [createBeforeToolCallHandler]
  rw [hc]
  exact ⟨rfl, h2⟩

/-- Witness for C8 on the empty store. -/
theorem c8_witness :
    (createBeforeToolCallHandler id (fun _ _ => false) (fun _ _ => none) defaultConfig
        emptyStore 1000 true "ab12cd34" "exec" [("command", .str "rm -rf /")]).result =
      some { block := true,
             blockReason := "GUARDIAN_ANGEL_BLOCK|Command would destroy root filesystem" } ∧
    (createBeforeToolCallHandler id (fun _ _ => false) (fun _ _ => none) defaultConfig
        emptyStore 1000 true "ab12cd34" "exec" [("command", .str "rm -rf /")]).state.pending =
      emptyStore.pending :=
  c8_rm_rf_root_blocked id (fun _ _ => false) (fun _ _ => none) emptyStore 1000 "ab12cd34"
    (fun a ha => by simp [emptyStore, alistGet] at ha)

/-- Claim C9: whenever the lowercased exec command contains the
substring rm -rf /tmp, checkIntrinsicEvil never produces the
root-filesystem-destruction block, even if the same command also
contains rm -rf / aimed at the root. -/
theorem c9_tmp_disables_root_check (rt : JsPattern → String → Bool)
    (rc : JsPattern → String → Option String)
    (params : List (String × JsonVal))
    (hcontains : strIncludes (strToLower (paramString params "command")) "rm -rf /tmp" = true) :
    checkIntrinsicEvil rt rc "exec" params ≠ some "Command would destroy root filesystem" := by
  intro habs
  unfold checkIntrinsicEvil at habs
  rw [if_pos (by decide)] at habs
  simp only [hcontains, Bool.not_true, Bool.and_false] at habs
  rw [if_neg (by simp)] at habs
  split at habs
  · exact absurd habs (by decide)
  split at habs
  · exact absurd habs (by decide)
  split at habs
  · exact absurd habs (by decide)
  split at habs
  · split at habs
    · split at habs
      · split at habs
        · exact checkImagePromptContent_reason_ne _ _ _ (by assumption) (Option.some.inj habs)
        · exact Option.noConfusion habs
      · exact Option.noConfusion habs
    · exact Option.noConfusion habs
  · exact Option.noConfusion habs

/-- Witness for C9 on a compound command that deletes /tmp/x and then
the root. -/
theorem c9_witness :
    strIncludes (strToLower (paramString [("command", .str "rm -rf /tmp/x; rm -rf /")]
        "command")) "rm -rf /tmp" = true ∧
    checkIntrinsicEvil (fun _ _ => false) (fun _ _ => none) "exec"
        [("command", .str "rm -rf /tmp/x; rm -rf /")] ≠
      some "Command would destroy root filesystem" :=
  ⟨by decide,
   c9_tmp_disables_root_check (fun _ _ => false) (fun _ _ => none)
     [("command", .str "rm -rf /tmp/x; rm -rf /")] (by decide)⟩

end GuardianAngel
